import Mathlib

/-!
# Verification of the vsmask specification against its source

vsmask assembles filter graphs (convolutions, pixel-wise expressions, LUTs,
min/max filters) for an external VapourSynth engine.  We model the engine
calls the library assembles as a deep AST (`VClip`), the pixel-wise RPN
expression language of `std.Expr` as token lists with a real-valued
evaluator, and the library's orchestration code (`vsmask/edge/_abstract.py`,
`vsmask/edge.py`, `vsmask/util.py`) as Lean functions producing these ASTs.
Numeric values handed to the engine are modelled as rationals; the engine's
float pixel arithmetic is modelled over the reals.
-/

namespace VSMask

/-! ## The engine's RPN expression language (`std.Expr`)

`std.Expr` takes a reverse-polish expression; variables `x y z a b c ...`
refer to the input clips in order.  Comparison operators push 1.0 / 0.0,
and `cond t f ?` selects `t` when `cond > 0`.  The library only ever
assembles the tokens below. -/

inductive ETok where
  | var (i : Nat)      -- 'x' = 0, 'y' = 1, 'z' = 2, 'a' = 3, ...
  | num (q : ℚ)        -- numeric literal
  | dup                -- duplicate top of stack
  | addT | subT | mulT -- '+' '-' '*'
  | maxT | minT        -- 'max' 'min'
  | sqrtT              -- 'sqrt'
  | gtT | leT          -- '>' '<='
  | ternary            -- '?'
  deriving DecidableEq, Repr

/-- One step of the engine's stack machine.  The stack head is the top.
A binary operator pops `b` then `a` and pushes `a ∘ b`; `?` pops the
false-branch, the true-branch and then the condition.  (Stack underflow is
rejected by the real engine; the library only assembles well-formed
expressions, and we let an underflowing step leave the stack unchanged.) -/
noncomputable def applyTok (env : List ℝ) : ETok → List ℝ → List ℝ
  | .var i, s => (env.getD i 0) :: s
  | .num q, s => (q : ℝ) :: s
  | .dup, a :: s => a :: a :: s
  | .dup, [] => []
  | .addT, b :: a :: s => (a + b) :: s
  | .subT, b :: a :: s => (a - b) :: s
  | .mulT, b :: a :: s => (a * b) :: s
  | .maxT, b :: a :: s => max a b :: s
  | .minT, b :: a :: s => min a b :: s
  | .sqrtT, a :: s => Real.sqrt a :: s
  | .gtT, b :: a :: s => (if a > b then (1 : ℝ) else 0) :: s
  | .leT, b :: a :: s => (if a ≤ b then (1 : ℝ) else 0) :: s
  | .ternary, f :: t :: c :: s => (if c > 0 then t else f) :: s
  | _, s => s

/-- Run an RPN token list on a stack. -/
noncomputable def evalToks (env : List ℝ) (toks : List ETok) (s : List ℝ) : List ℝ :=
  toks.foldl (fun st t => applyTok env t st) s

/-- The pixel value an expression produces for the given per-clip pixel
values `env`. -/
noncomputable def evalE (toks : List ETok) (env : List ℝ) : ℝ :=
  (evalToks env toks []).headD 0

/-! ## Expressions assembled by the library (verbatim from the source) -/

/-- `EuclidianDistance._merge_edge`: `'x x * y y * + sqrt'`
(`_abstract.py:256`). -/
def euclidExpr : List ETok :=
  [.var 0, .var 0, .mulT, .var 1, .var 1, .mulT, .addT, .sqrtT]

/-- `util.max_expr(n)`: `' '.join(EXPR_VARS[:n]) + ' max' * (n - 1)`
(`util.py:53-60`), i.e. the `n` clip variables followed by `n - 1` `max`
tokens. -/
def maxExprToks (n : Nat) : List ETok :=
  (List.range n).map ETok.var ++ List.replicate (n - 1) ETok.maxT

/-- `RidgeDetect._merge_ridge`:
`'x y * 2 * -1 * x dup * z dup * 4 * + y dup * + + sqrt x y + +'`
(`_abstract.py:225`). -/
def ridgeExpr : List ETok :=
  [.var 0, .var 1, .mulT, .num 2, .mulT, .num (-1), .mulT,
   .var 0, .dup, .mulT, .var 2, .dup, .mulT, .num 4, .mulT, .addT,
   .var 1, .dup, .mulT, .addT, .addT, .sqrtT,
   .var 0, .var 1, .addT, .addT]

/-- `DoG._merge_edge`: `'x y -'` (`_5x5.py:110`). -/
def dogExpr : List ETok := [.var 0, .var 1, .subT]

/-- Float multiply step: `f'x {multi} *'` (`_abstract.py:112`). -/
def multiExprF (multi : ℚ) : List ETok := [.var 0, .num multi, .mulT]

/-- Float threshold step: `f'x {hthr} > {peak} x {lthr} <= 0 x ? ?'`
(`_abstract.py:120`). -/
def thrExprF (hthr peak lthr : ℚ) : List ETok :=
  [.var 0, .num hthr, .gtT, .num peak,
   .var 0, .num lthr, .leT, .num 0, .var 0, .ternary, .ternary]

/-- Clamp expression: `'x {} max {} min'.format(lo, hi)`
(`_abstract.py:128,130,144`). -/
def clampExpr (lo hi : ℚ) : List ETok :=
  [.var 0, .num lo, .maxT, .num hi, .minT]

/-! ## Clips and the assembled filter graph -/

inductive SampleT where
  | integer | float
  deriving DecidableEq, Repr

/-- The fields of `vs.VideoFormat` the library reads. -/
structure VFormat where
  bits_per_sample : Nat
  sample_type : SampleT
  num_planes : Nat
  subsampling_w : Nat
  deriving DecidableEq, Repr

def isFloatFmt (f : VFormat) : Bool :=
  match f.sample_type with
  | .float => true
  | .integer => false

/-- The engine calls the library assembles, as a deep AST.  `lut` carries
the Python callback handed to `std.Lut(function=...)`. -/
inductive VClip where
  | source (fmt : Option VFormat)
  | conv (c : VClip) (matrix : List ℚ) (divisor : ℚ) (saturate : Bool) (mode : String)
  | exprN (cs : List VClip) (exprs : List (List ETok))
  | lut (c : VClip) (f : ℤ → ℤ)
  | crop (c : VClip) (right : Nat)
  | resizePoint (c : VClip) (width : Nat) (srcWidth : Nat)
  | maxFilter (c : VClip) (planes : Option (List Nat)) (thr : Option Nat) (coords : List Nat)
  | minFilter (c : VClip) (planes : Option (List Nat)) (thr : Option Nat) (coords : List Nat)
  | depth (c : VClip) (bits : Nat) (fullRangeArgs : Bool)

/-- An engine clip handle: the properties the library reads plus the
assembled graph.  `colorRange` models the `_ColorRange` property of the
first frame. -/
structure VNode where
  format : Option VFormat
  width : Nat
  colorRange : ℤ
  graph : VClip

def dummyNode : VNode := ⟨none, 0, 0, .source none⟩

/-- `clip.std.Convolution(matrix=, divisor=, saturate=, mode=)`. -/
def VNode.convolution (c : VNode) (matrix : List ℚ) (divisor : ℚ)
    (saturate : Bool) (mode : String) : VNode :=
  { c with graph := .conv c.graph matrix divisor saturate mode }

/-- `core.std.Expr(clips, exprs)`; the output inherits the first clip's
properties. -/
def stdExpr (cs : List VNode) (exprs : List (List ETok)) : VNode :=
  { cs.headD dummyNode with graph := .exprN (cs.map VNode.graph) exprs }

/-- `clip.std.Lut(function=f)`. -/
def VNode.lutNode (c : VNode) (f : ℤ → ℤ) : VNode :=
  { c with graph := .lut c.graph f }

/-! ## The edge-operator descriptor (`MatrixEdgeDetect` and its traits)

`_abstract.py` declares three merge marker traits, each fixing
`_merge_edge`:

* `SingleMatrix._merge_edge` returns `clips[0]` (`_abstract.py:238-239`);
* `EuclidianDistance._merge_edge` is `Expr(clips, 'x x * y y * + sqrt')`
  (`_abstract.py:255-256`);
* `Max._merge_edge` is `Expr(clips, max_expr(len(clips)))`
  (`_abstract.py:272-273`).

A concrete operator class lists one of the traits among its bases; Python's
method resolution then uses the trait's `_merge_edge` unless the class
overrides it (the only override in the catalog is `DoG`,
`_5x5.py:109-110`). -/

inductive MergeTrait where
  | singleMatrix | euclidianDistance | maxTrait
  deriving DecidableEq, Repr

/-- The `_merge_edge` implementation an operator class actually resolves
to.  `dogI` is `DoG`'s override `Expr(clips, 'x y -')`. -/
inductive MergeImpl where
  | singleI | euclidI | maxI | dogI
  deriving DecidableEq, Repr

/-- The `_merge_edge` provided by each marker trait. -/
def traitImpl : MergeTrait → MergeImpl
  | .singleMatrix => .singleI
  | .euclidianDistance => .euclidI
  | .maxTrait => .maxI

/-- Run a `_merge_edge` implementation on the per-matrix convolution
outputs. -/
def runMergeEdge : MergeImpl → List VNode → VNode
  | .singleI, cs => cs.headD dummyNode
  | .euclidI, cs => stdExpr cs [euclidExpr]
  | .maxI, cs => stdExpr cs [maxExprToks cs.length]
  | .dogI, cs => stdExpr cs [dogExpr]

/-- The `_preprocess` implementation an operator class resolves to: the
`EdgeDetect` default identity (`_abstract.py:156-157`), or the
`depth(clip, 32)` override of `DoG` and `Farid`
(`_5x5.py:103-104, 128-129`). -/
inductive PreprocImpl where
  | idPre | depth32
  deriving DecidableEq, Repr

/-- The `_postprocess` implementation an operator class resolves to: the
conditional crop of `MatrixEdgeDetect` (`_abstract.py:205-210`), or the
`depth(clip, self._bits, range=Range.FULL, range_in=Range.FULL)` override
of `DoG` and `Farid` (`_5x5.py:106-107, 131-132`), which never crops. -/
inductive PostprocImpl where
  | cropPost | depthBack
  deriving DecidableEq, Repr

/-- A `MatrixEdgeDetect` subclass: its class-level constants
(`matrices`, `divisors`, `mode_types`, `_abstract.py:164-166`), the merge
marker trait it declares among its bases, and the `_merge_edge`,
`_preprocess` and `_postprocess` implementations its MRO resolves to. -/
structure MatrixOp where
  name : String
  matrices : List (List ℚ)
  divisors : Option (List ℚ) := none
  mode_types : Option (List String) := none
  trait : MergeTrait
  mergeEdge : MergeImpl
  overridesMergeEdge : Bool := false
  preproc : PreprocImpl := .idPre
  postproc : PostprocImpl := .cropPost

/-- `_get_divisors`: `self.divisors if self.divisors else [0.0] * len(...)`
(`_abstract.py:199-200`); `None` and the empty list are both falsy. -/
def MatrixOp.getDivisors (op : MatrixOp) : List ℚ :=
  match op.divisors with
  | some l => if l.isEmpty then List.replicate op.matrices.length 0 else l
  | none => List.replicate op.matrices.length 0

/-- `_get_mode_types`: `self.mode_types if self.mode_types else ['s'] * ...`
(`_abstract.py:202-203`). -/
def MatrixOp.getModeTypes (op : MatrixOp) : List String :=
  match op.mode_types with
  | some l => if l.isEmpty then List.replicate op.matrices.length "s" else l
  | none => List.replicate op.matrices.length "s"

/-- The `(matrix, divisor, mode)` triples handed to `std.Convolution` by
the comprehension of `_compute_edge_mask` (`_abstract.py:168-172`):
`zip(self._get_matrices(), self._get_divisors(), self._get_mode_types())`
— `zip` truncates to the shortest of the three. -/
def edgeConvArgs (op : MatrixOp) : List (List ℚ × ℚ × String) :=
  op.matrices.zip (op.getDivisors.zip op.getModeTypes)

/-- `MatrixEdgeDetect._compute_edge_mask` (`_abstract.py:168-172`): one
`std.Convolution(matrix=mat, divisor=div, saturate=False, mode=mode)` per
zipped triple, merged by the resolved `_merge_edge`. -/
def computeEdgeMask (op : MatrixOp) (clip : VNode) : VNode :=
  runMergeEdge op.mergeEdge
    ((edgeConvArgs op).map fun t => clip.convolution t.1 t.2.1 false t.2.2)

/-- `MatrixEdgeDetect._compute_ridge_mask` (`_abstract.py:174-186`).
`_x`/`_y` call `std.Convolution(matrix, divisor)` with the engine defaults
`saturate=True, mode='s'`.  Note the source computes `xy = _x(x)` — the
same expression as `xx` — and merges `[xx, yy, xy]` with
`RidgeDetect._merge_ridge` (`_abstract.py:223-225`). -/
def computeRidgeMask (op : MatrixOp) (clip : VNode) : VNode :=
  let cx := fun c : VNode =>
    c.convolution (op.matrices.getD 0 []) (op.getDivisors.getD 0 0) true "s"
  let cy := fun c : VNode =>
    c.convolution (op.matrices.getD 1 []) (op.getDivisors.getD 1 0) true "s"
  let x := cx clip
  let y := cy clip
  let xx := cx x
  let yy := cy y
  let xy := cx x
  stdExpr [xx, yy, xy] [ridgeExpr]

/-- The crop condition of `MatrixEdgeDetect._postprocess`
(`_abstract.py:206`): `len(self.matrices[0]) > 9 or
(self.mode_types and self.mode_types[0] != 's')`. -/
def cropCond (op : MatrixOp) : Prop :=
  9 < (op.matrices.headD []).length ∨
    (match op.mode_types with
     | some (m :: _) => m ≠ "s"
     | some [] => False
     | none => False)

instance (op : MatrixOp) : Decidable (cropCond op) := by
  unfold cropCond
  cases h : op.mode_types with
  | none => simp only; exact inferInstance
  | some l => cases l <;> · simp only; exact inferInstance

/-- The crop amount of `_postprocess` (`_abstract.py:207-209`):
`clip.format.subsampling_w * 2 if clip.format and
clip.format.subsampling_w != 0 else 2`. -/
def cropAmount (c : VNode) : Nat :=
  match c.format with
  | some f => if f.subsampling_w ≠ 0 then f.subsampling_w * 2 else 2
  | none => 2

/-- `MatrixEdgeDetect._postprocess` (`_abstract.py:205-210`): when the
crop condition holds, `clip.std.Crop(right=...).resize.Point(clip.width,
src_width=clip.width)` (both widths read from the pre-crop clip). -/
def postprocessM (op : MatrixOp) (c : VNode) : VNode :=
  if cropCond op then
    let r := cropAmount c
    let cropped : VNode := { c with width := c.width - r, graph := .crop c.graph r }
    { cropped with
      width := c.width,
      graph := .resizePoint cropped.graph c.width c.width }
  else c

/-- `vsutil.depth(clip, bits)`: an engine bit-depth conversion.  vsutil
picks the float sample type at 32 bits and integer below; `fullRangeArgs`
records whether `range=Range.FULL, range_in=Range.FULL` is passed (as the
`_postprocess` overrides do). -/
def depthNode (c : VNode) (bits : Nat) (fullRangeArgs : Bool) : VNode :=
  { c with
    format := c.format.map fun f =>
      { f with
        bits_per_sample := bits,
        sample_type := if bits = 32 then SampleT.float else SampleT.integer },
    graph := .depth c.graph bits fullRangeArgs }

/-- Run the `_preprocess` an operator resolves to. -/
def runPreproc : PreprocImpl → VNode → VNode
  | .idPre, c => c
  | .depth32, c => depthNode c 32 false

/-- Run the `_postprocess` an operator resolves to; `bits` is
`self._bits`, the bit depth of the original input clip. -/
def runPostproc : PostprocImpl → MatrixOp → Nat → VNode → VNode
  | .cropPost, op, _, c => postprocessM op c
  | .depthBack, _, bits, c => depthNode c bits true

/-! ## The `_mask` pipeline (`EdgeDetect._mask`, `_abstract.py:87-146`) -/

/-- Python's `round`: round half to even. -/
def pyRound (q : ℚ) : ℤ :=
  let f := ⌊q⌋
  let r := q - f
  if r < 1/2 then f
  else if 1/2 < r then f + 1
  else if f % 2 = 0 then f else f + 1

/-- The `clamp` argument: `bool | Tuple[float, float] |
List[Tuple[float, float]]`. -/
inductive ClampArg where
  | bool (b : Bool)
  | tup (lo hi : ℚ)
  | listC (l : List (ℚ × ℚ))

/-- Python truthiness of the `clamp` argument (`if clamp:`,
`_abstract.py:126`): `False` and the empty list are falsy; any pair is
truthy. -/
def clampTruthy : ClampArg → Bool
  | .bool b => b
  | .tup _ _ => true
  | .listC l => !l.isEmpty

inductive Feature where
  | edge | ridge
  deriving DecidableEq, Repr

/-- The integer multiply LUT (`_abstract.py:114-115`):
`round(max(min(x * multi, peak), 0))`. -/
def multiFunc (multi peak : ℚ) (x : ℤ) : ℤ :=
  pyRound (max (min ((x : ℚ) * multi) peak) 0)

/-- The integer threshold LUT (`_abstract.py:122-123`):
`peak if x > hthr else 0 if x <= lthr else x`, where `peak` is the
integer `(1 << bits) - 1`. -/
def thrFunc (peak : ℤ) (hthr lthr : ℚ) (x : ℤ) : ℤ :=
  if (x : ℚ) > hthr then peak else if (x : ℚ) ≤ lthr then 0 else x

/-- The multiply step of `_mask` (`_abstract.py:110-116`). -/
def multiStep (isFloat : Bool) (peak multi : ℚ) (c : VNode) : VNode :=
  if multi ≠ 1 then
    if isFloat then stdExpr [c] [multiExprF multi]
    else c.lutNode (multiFunc multi peak)
  else c

/-- The threshold step of `_mask` (`_abstract.py:118-124`).  `peakI` is
the integer peak `(1 << bits) - 1` the LUT closure returns; `peak` is the
same value as a float (or `1.0` for float clips). -/
def thrStep (isFloat : Bool) (peakI : ℤ) (peak lthr hthr : ℚ) (c : VNode) : VNode :=
  if lthr > 0 ∨ hthr < peak then
    if isFloat then stdExpr [c] [thrExprF hthr peak lthr]
    else c.lutNode (thrFunc peakI hthr lthr)
  else c

/-- TV-range clamp bounds `16 << bits - 8`, `235 << bits - 8`,
`240 << bits - 8` (`_abstract.py:139-141`; every VapourSynth integer
format has at least 8 bits). -/
def tvClampVals (bits : Nat) : List (ℚ × ℚ) :=
  [(16 * 2 ^ (bits - 8), 235 * 2 ^ (bits - 8)),
   (16 * 2 ^ (bits - 8), 240 * 2 ^ (bits - 8)),
   (16 * 2 ^ (bits - 8), 240 * 2 ^ (bits - 8))]

/-- The default clamp bounds (`_abstract.py:132-142`), read off the mask's
format and the `_ColorRange` property of its first frame. -/
def defaultClampVals (isFloat : Bool) (bits : Nat) (peak : ℚ) (crange : ℤ) :
    List (ℚ × ℚ) :=
  if isFloat then [(0, 1), (-(1/2), 1/2), (-(1/2), 1/2)]
  else if crange = 0 then List.replicate 3 (0, peak)
  else tvClampVals bits

/-- The clamp step of `_mask` (`_abstract.py:126-144`).  Note the source
tests `isinstance(clamp, list)` with a plain `if`, then
`isinstance(clamp, tuple)` with an `if/else`: a list is clamped to its
listed pairs and then *additionally* falls into the `else` branch, which
applies the default range clamp. -/
def clampStep (isFloat : Bool) (bits : Nat) (peak : ℚ) (clamp : ClampArg)
    (c : VNode) : VNode :=
  if clampTruthy clamp then
    let c1 := match clamp with
      | .listC l => stdExpr [c] (l.map fun p => clampExpr p.1 p.2)
      | _ => c
    match clamp with
    | .tup lo hi => stdExpr [c1] [clampExpr lo hi]
    | _ =>
      let vals := defaultClampVals isFloat bits peak c1.colorRange
      let n := (c1.format.map VFormat.num_planes).getD 0
      stdExpr [c1] ((vals.take n).map fun p => clampExpr p.1 p.2)
  else c

/-- `EdgeDetect._mask` (`_abstract.py:87-146`) for a `MatrixEdgeDetect`
operator: validate the format, apply the operator's `_preprocess`,
compute the edge or ridge mask, apply the operator's `_postprocess`, then
multiply, threshold and clamp.  `_preprocess` and `_postprocess` are
virtual: most operators inherit the identity and the conditional crop,
while `DoG` and `Farid` override both with depth conversions. -/
def maskM (op : MatrixOp) (clip : VNode) (lthr : ℚ) (hthr? : Option ℚ)
    (multi : ℚ) (clamp : ClampArg) (feature : Feature) : Except String VNode :=
  match clip.format with
  | none => .error "Variable format not allowed!"
  | some fmt =>
    let bits := fmt.bits_per_sample
    let isFloat := isFloatFmt fmt
    let peak : ℚ := if isFloat then 1 else 2 ^ bits - 1
    let hthr := hthr?.getD peak
    let clip_p := runPreproc op.preproc clip
    let mask0 := match feature with
      | .edge => computeEdgeMask op clip_p
      | .ridge => computeRidgeMask op clip_p
    let mask1 := runPostproc op.postproc op bits mask0
    let mask2 := multiStep isFloat peak multi mask1
    let mask3 := thrStep isFloat (2 ^ bits - 1) peak lthr hthr mask2
    let mask4 := clampStep isFloat bits peak clamp mask3
    .ok mask4

/-- The mutable per-call state of an `EdgeDetect` instance: the class
constants plus `self._bits`, the only attribute `_mask` assigns
(`_abstract.py:98`). -/
structure OpState where
  op : MatrixOp
  bits : Option Nat := none

/-- `_mask` with the instance state threaded through: on a variable-format
clip it raises before assigning `_bits`; otherwise it sets `_bits` and
reads only the class constants.  `edgemask`, `ridgemask` and the
deprecated `get_mask` are all direct calls of `_mask`
(`_abstract.py:26-64`, `_abstract.py:214-221`). -/
def maskS (st : OpState) (clip : VNode) (lthr : ℚ) (hthr? : Option ℚ)
    (multi : ℚ) (clamp : ClampArg) (feature : Feature) :
    OpState × Except String VNode :=
  match clip.format with
  | none => (st, .error "Variable format not allowed!")
  | some fmt =>
    ({ st with bits := some fmt.bits_per_sample },
     maskM st.op clip lthr hthr? multi clamp feature)

/-- The legacy `vsmask.edge.EdgeDetect.get_mask` (`edge.py:19-59`): the
same pipeline as `_mask` without the clamp step and with the error message
prefixed `'get_mask: '` (`edge.py:33-34`).  Its `_pick_px_op` dispatch
(`util.py:17-50`) selects the same `Expr` strings / `Lut` closures as
`_mask`. -/
def getMaskLegacy (op : MatrixOp) (clip : VNode) (lthr : ℚ)
    (hthr? : Option ℚ) (multi : ℚ) : Except String VNode :=
  match clip.format with
  | none => .error "get_mask: Variable format not allowed!"
  | some fmt =>
    let bits := fmt.bits_per_sample
    let isFloat := isFloatFmt fmt
    let peak : ℚ := if isFloat then 1 else 2 ^ bits - 1
    let hthr := hthr?.getD peak
    let mask0 := computeEdgeMask op (runPreproc op.preproc clip)
    let mask1 := runPostproc op.postproc op bits mask0
    let mask2 := multiStep isFloat peak multi mask1
    let mask3 := thrStep isFloat (2 ^ bits - 1) peak lthr hthr mask2
    .ok mask3

/-! ## The operator catalog

The concrete operator classes that declare one of the three merge marker
traits, with their class-level coefficient tables, transcribed from
`edge/_1d.py`, `edge/_2x2.py` and `edge/_5x5.py`.  (`edge/_3x3.py` in this
tree still imports the legacy trait names `SingleMatrixDetect` /
`EuclidianDistanceMatrixDetect` / `MaxDetect` that `_abstract.py` no
longer exports, so its classes are not importable against `_abstract.py`
and are left out.)  `trait` records which marker base the class lists;
`mergeEdge` records the `_merge_edge` its MRO resolves to. -/

/-- `class Roberts(RidgeDetect, EuclidianDistance, Matrix2x2)`
(`_2x2.py`). -/
def Roberts : MatrixOp :=
  { name := "Roberts"
    matrices := [[0, 0, 0, 0, 1, 0, 0, 0, -1],
                 [0, 0, 0, 0, 0, 1, 0, -1, 0]]
    trait := .euclidianDistance, mergeEdge := .euclidI }

/-- `class TEdge(EuclidianDistance, Matrix1D)` (`_1d.py`). -/
def TEdge : MatrixOp :=
  { name := "TEdge"
    matrices := [[12, -74, 0, 74, -12], [-12, 74, 0, -74, 12]]
    divisors := some [62, 62]
    mode_types := some ["h", "v"]
    trait := .euclidianDistance, mergeEdge := .euclidI }

/-- `class SavitzkyGolayDeriv1Quad5(SavitzkyGolay)` with
`SavitzkyGolay(EuclidianDistance, Matrix1D)` (`_1d.py`). -/
def SavitzkyGolayDeriv1Quad5 : MatrixOp :=
  { name := "SavitzkyGolayDeriv1Quad5"
    matrices := [[-2, -1, 0, 1, 2], [-2, -1, 0, 1, 2]]
    divisors := some [10, 10]
    mode_types := some ["h", "v"]
    trait := .euclidianDistance, mergeEdge := .euclidI }

/-- `class SavitzkyGolayDeriv2Quad5(SavitzkyGolay)` (`_1d.py`). -/
def SavitzkyGolayDeriv2Quad5 : MatrixOp :=
  { name := "SavitzkyGolayDeriv2Quad5"
    matrices := [[2, -1, -2, -1, 2], [2, -1, -2, -1, 2]]
    divisors := some [7, 7]
    mode_types := some ["h", "v"]
    trait := .euclidianDistance, mergeEdge := .euclidI }

/-- `class ExLaplacian1(SingleMatrix, Matrix5x5)` (`_5x5.py`). -/
def ExLaplacian1 : MatrixOp :=
  { name := "ExLaplacian1"
    matrices := [[0, 0, -1, 0, 0, 0, 0, -1, 0, 0, -1, -1, 8, -1, -1,
                  0, 0, -1, 0, 0, 0, 0, -1, 0, 0]]
    trait := .singleMatrix, mergeEdge := .singleI }

/-- `class ExLaplacian2(SingleMatrix, Matrix5x5)` (`_5x5.py`). -/
def ExLaplacian2 : MatrixOp :=
  { name := "ExLaplacian2"
    matrices := [[0, 1, -1, 1, 0, 1, 1, -4, 1, 1, -1, -4, 8, -4, -1,
                  1, 1, -4, 1, 1, 0, 1, -1, 1, 0]]
    trait := .singleMatrix, mergeEdge := .singleI }

/-- `class ExLaplacian3(SingleMatrix, Matrix5x5)` (`_5x5.py`). -/
def ExLaplacian3 : MatrixOp :=
  { name := "ExLaplacian3"
    matrices := [[-1, 1, -1, 1, -1, 1, 2, -4, 2, 1, -1, -4, 8, -4, -1,
                  1, 2, -4, 2, 1, -1, 1, -1, 1, -1]]
    trait := .singleMatrix, mergeEdge := .singleI }

/-- `class ExLaplacian4(SingleMatrix, Matrix5x5)` (`_5x5.py`). -/
def ExLaplacian4 : MatrixOp :=
  { name := "ExLaplacian4"
    matrices := [[-1, -1, -1, -1, -1, -1, -1, -1, -1, -1, -1, -1, 24, -1, -1,
                  -1, -1, -1, -1, -1, -1, -1, -1, -1, -1]]
    trait := .singleMatrix, mergeEdge := .singleI }

/-- `class LoG(SingleMatrix, Matrix5x5)` (`_5x5.py`). -/
def LoG : MatrixOp :=
  { name := "LoG"
    matrices := [[0, 0, -1, 0, 0, 0, -1, -2, -1, 0, -1, -2, 16, -2, -1,
                  0, -1, -2, -1, 0, 0, 0, -1, 0, 0]]
    trait := .singleMatrix, mergeEdge := .singleI }

/-- `class ExPrewitt(RidgeDetect, EuclidianDistance, Matrix5x5)`
(`_5x5.py`). -/
def ExPrewitt : MatrixOp :=
  { name := "ExPrewitt"
    matrices := [[2, 1, 0, -1, -2, 2, 1, 0, -1, -2, 2, 1, 0, -1, -2,
                  2, 1, 0, -1, -2, 2, 1, 0, -1, -2],
                 [2, 2, 2, 2, 2, 1, 1, 1, 1, 1, 0, 0, 0, 0, 0,
                  -1, -1, -1, -1, -1, -2, -2, -2, -2, -2]]
    trait := .euclidianDistance, mergeEdge := .euclidI }

/-- `class ExSobel(RidgeDetect, EuclidianDistance, Matrix5x5)`
(`_5x5.py`). -/
def ExSobel : MatrixOp :=
  { name := "ExSobel"
    matrices := [[2, 1, 0, -1, -2, 2, 1, 0, -1, -2, 4, 2, 0, -2, -4,
                  2, 1, 0, -1, -2, 2, 1, 0, -1, -2],
                 [2, 2, 4, 2, 2, 1, 1, 2, 1, 1, 0, 0, 0, 0, 0,
                  -1, -1, -2, -1, -1, -2, -2, -4, -2, -2]]
    trait := .euclidianDistance, mergeEdge := .euclidI }

/-- `class FDoG(RidgeDetect, EuclidianDistance, Matrix5x5)` (`_5x5.py`). -/
def FDoG : MatrixOp :=
  { name := "FDoG"
    matrices := [[1, 1, 0, -1, -1, 2, 2, 0, -2, -2, 3, 3, 0, -3, -3,
                  2, 2, 0, -2, -2, 1, 1, 0, -1, -1],
                 [1, 2, 3, 2, 1, 1, 2, 3, 2, 1, 0, 0, 0, 0, 0,
                  -1, -2, -3, -2, -1, -1, -2, -3, -2, -1]]
    divisors := some [2, 2]
    trait := .euclidianDistance, mergeEdge := .euclidI }

/-- `class DoG(EuclidianDistance, Matrix5x5)` (`_5x5.py:95-110`): declares
the `EuclidianDistance` trait but overrides `_merge_edge` with
`Expr(clips, 'x y -')`; it also overrides `_preprocess` with
`depth(clip, 32)` and `_postprocess` with a depth conversion back to
`self._bits` (no crop). -/
def DoG : MatrixOp :=
  { name := "DoG"
    matrices := [[0, 0, 5, 0, 0, 0, 5, 10, 5, 0, 5, 10, 20, 10, 5,
                  0, 5, 10, 5, 0, 0, 0, 5, 0, 0],
                 [0, 25, 0, 25, 50, 25, 0, 25, 0]]
    divisors := some [4, 6]
    trait := .euclidianDistance, mergeEdge := .dogI
    overridesMergeEdge := true
    preproc := .depth32, postproc := .depthBack }

/-- `class Farid(RidgeDetect, EuclidianDistance, Matrix5x5)`
(`_5x5.py:113-132`): overrides `_preprocess` with `depth(clip, 32)` and
`_postprocess` with a depth conversion back to `self._bits` (no crop). -/
def Farid : MatrixOp :=
  { name := "Farid"
    matrices := [[0.004127602875174862, 0.027308149775363867, 0.04673225765917656,
                  0.027308149775363867, 0.004127602875174862,
                  0.010419993699470744, 0.06893849946536831, 0.11797400212587895,
                  0.06893849946536831, 0.010419993699470744,
                  0, 0, 0, 0, 0,
                  -0.010419993699470744, -0.06893849946536831, -0.11797400212587895,
                  -0.06893849946536831, -0.010419993699470744,
                  -0.004127602875174862, -0.027308149775363867, -0.04673225765917656,
                  -0.027308149775363867, -0.004127602875174862],
                 [0.004127602875174862, 0.027308149775363867, 0.04673225765917656,
                  0.027308149775363867, 0.004127602875174862,
                  0.010419993699470744, 0.06893849946536831, 0.11797400212587895,
                  0.06893849946536831, 0.010419993699470744,
                  0, 0, 0, 0, 0,
                  -0.010419993699470744, -0.06893849946536831, -0.11797400212587895,
                  -0.06893849946536831, -0.010419993699470744,
                  -0.004127602875174862, -0.027308149775363867, -0.04673225765917656,
                  -0.027308149775363867, -0.004127602875174862]]
    trait := .euclidianDistance, mergeEdge := .euclidI
    preproc := .depth32, postproc := .depthBack }

/-- `class ExKirsch(Max)` (`_5x5.py`). -/
def ExKirsch : MatrixOp :=
  { name := "ExKirsch"
    matrices :=
      [[9, 9, 9, 9, 9, 9, 5, 5, 5, 9, -7, -3, 0, -3, -7,
        -7, -3, -3, -3, -7, -7, -7, -7, -7, -7],
       [9, 9, 9, 9, -7, 9, 5, 5, -3, -7, 9, 5, 0, -3, -7,
        9, -3, -3, -3, -7, -7, -7, -7, -7, -7],
       [9, 9, -7, -7, -7, 9, 5, -3, -3, -7, 9, 5, 0, -3, -7,
        9, 5, -3, -3, -7, 9, 9, -7, -7, -7],
       [-7, -7, -7, -7, -7, 9, -3, -3, -3, -7, 9, 5, 0, -3, -7,
        9, 5, 5, -3, -7, 9, 9, 9, 9, -7],
       [-7, -7, -7, -7, -7, -7, -3, -3, -3, -7, -7, -3, 0, -3, -7,
        9, 5, 5, 5, 9, 9, 9, 9, 9, 9],
       [-7, -7, -7, -7, -7, -7, -3, -3, -3, 9, -7, -3, 0, 5, 9,
        -7, -3, 5, 5, 9, -7, 9, 9, 9, 9],
       [-7, -7, -7, 9, 9, -7, -3, -3, 5, 9, -7, -3, 0, 5, 9,
        -7, -3, -3, 5, 9, -7, -7, -7, 9, 9],
       [-7, 9, 9, 9, 9, -7, -3, 5, 5, 9, -7, -3, 0, 5, 9,
        -7, -3, -3, -3, 9, -7, -7, -7, -7, -7]]
    trait := .maxTrait, mergeEdge := .maxI }

/-- The catalog of trait-declaring operator classes modelled above. -/
def opCatalog : List MatrixOp :=
  [Roberts, TEdge, SavitzkyGolayDeriv1Quad5, SavitzkyGolayDeriv2Quad5,
   ExLaplacian1, ExLaplacian2, ExLaplacian3, ExLaplacian4, LoG,
   ExPrewitt, ExSobel, FDoG, DoG, Farid, ExKirsch]

/-! ## Morphological utilities (`util.py:63-152`) -/

inductive XxpandMode where
  | rectangle | ellipse | losange
  deriving DecidableEq, Repr

/-- The morphological engine filter `morpho_transfo` is instantiated with:
`std.Maximum` for `expand`, `std.Minimum` for `inpand`. -/
inductive MorphoFilter where
  | maximum | minimum
  deriving DecidableEq, Repr

/-- One call `func(clip, planes, thr, coordinates)` (`util.py:109`). -/
def applyMorpho (f : MorphoFilter) (c : VNode) (planes : Option (List Nat))
    (thr : Option Nat) (coords : List Nat) : VNode :=
  match f with
  | .maximum => { c with graph := .maxFilter c.graph planes thr coords }
  | .minimum => { c with graph := .minFilter c.graph planes thr coords }

/-- `range(n, -1, -1)`: the list `[n, n-1, ..., 0]`. -/
def downRange : Nat → List Nat
  | 0 => [0]
  | n + 1 => (n + 1) :: downRange n

/-- `itertools.zip_longest(_, _, fillvalue=0)`. -/
def zipLongest0 : List Nat → List Nat → List (Nat × Nat)
  | [], [] => []
  | [], b :: bs => (0, b) :: zipLongest0 [] bs
  | a :: as, [] => (a, 0) :: zipLongest0 as []
  | a :: as, b :: bs => (a, b) :: zipLongest0 as bs

/-- The pair sequence iterated by the loop of `morpho_transfo`
(`util.py:97`). -/
def morphoPairs (sw sh : Nat) : List (Nat × Nat) :=
  zipLongest0 (downRange sw) (downRange sh)

/-- The branch of `morpho_transfo` selecting the 3x3 neighbourhood
coordinates for one iteration (`util.py:98-108`); `none` models the
`break`. -/
def coordsFor (mode : XxpandMode) (wi hi : Nat) : Option (List Nat) :=
  if 0 < wi ∧ 0 < hi then
    if mode = XxpandMode.losange ∨ (mode = XxpandMode.ellipse ∧ wi % 3 ≠ 1) then
      some [0, 1, 0, 1, 1, 0, 1, 0]
    else some (List.replicate 8 1)
  else if 0 < wi then some [0, 0, 0, 1, 1, 0, 0, 0]
  else if 0 < hi then some [0, 1, 0, 0, 0, 0, 1, 0]
  else none

/-- The loop body of `morpho_transfo`, folding the filter calls over the
pair sequence and stopping at the `break`. -/
def morphoGo (f : MorphoFilter) (mode : XxpandMode) (planes : Option (List Nat))
    (thr : Option Nat) : List (Nat × Nat) → VNode → VNode
  | [], c => c
  | (wi, hi) :: rest, c =>
    match coordsFor mode wi hi with
    | some coords => morphoGo f mode planes thr rest (applyMorpho f c planes thr coords)
    | none => c

/-- `morpho_transfo(clip, func, sw, sh=None, mode=RECTANGLE, thr=None,
planes=None)` (`util.py:76-110`); `sh` defaults to `sw`. -/
def morpho_transfo (clip : VNode) (f : MorphoFilter) (sw : Nat)
    (sh : Option Nat := none) (mode : XxpandMode := .rectangle)
    (thr : Option Nat := none) (planes : Option (List Nat) := none) : VNode :=
  morphoGo f mode planes thr (morphoPairs sw (sh.getD sw)) clip

/-- `expand` (`util.py:113-131`): `morpho_transfo(clip, core.std.Maximum, ...)`. -/
def expand (clip : VNode) (sw : Nat) (sh : Option Nat := none)
    (mode : XxpandMode := .rectangle) (thr : Option Nat := none)
    (planes : Option (List Nat) := none) : VNode :=
  morpho_transfo clip .maximum sw sh mode thr planes

/-- `inpand` (`util.py:134-152`): `morpho_transfo(clip, core.std.Minimum, ...)`. -/
def inpand (clip : VNode) (sw : Nat) (sh : Option Nat := none)
    (mode : XxpandMode := .rectangle) (thr : Option Nat := none)
    (planes : Option (List Nat) := none) : VNode :=
  morpho_transfo clip .minimum sw sh mode thr planes

/-- The list of coordinate arguments the loop passes to the engine filter,
in order. -/
def morphoCallsGo (mode : XxpandMode) : List (Nat × Nat) → List (List Nat)
  | [] => []
  | (wi, hi) :: rest =>
    match coordsFor mode wi hi with
    | some coords => coords :: morphoCallsGo mode rest
    | none => []

/-- The coordinate lists of all engine filter calls made by
`morpho_transfo(_, _, sw, sh, mode, ...)`. -/
def morphoCalls (mode : XxpandMode) (sw sh : Nat) : List (List Nat) :=
  morphoCallsGo mode (morphoPairs sw sh)

/-! ## Semantics of the assembled expressions -/

theorem evalToks_append (env : List ℝ) (l₁ l₂ : List ETok) (s : List ℝ) :
    evalToks env (l₁ ++ l₂) s = evalToks env l₂ (evalToks env l₁ s) := by
  simp [evalToks, List.foldl_append]

theorem evalToks_vars (env : List ℝ) (n : Nat) (s : List ℝ) :
    evalToks env ((List.range n).map ETok.var) s =
      ((List.range n).map fun i => env.getD i 0).reverse ++ s := by
  induction n generalizing s with
  | zero => simp [evalToks]
  | succ n ih =>
    rw [List.range_succ, List.map_append, evalToks_append, ih]
    simp [evalToks, applyTok]

/-- Running `k` `max` tokens on a stack of exactly `k + 1` values reduces
it to the single value `max` of the stack. -/
theorem evalToks_maxRun (env : List ℝ) :
    ∀ (k : Nat) (st : List ℝ), st.length = k + 1 →
      ∃ m, evalToks env (List.replicate k ETok.maxT) st = [m] ∧
        m ∈ st ∧ ∀ v ∈ st, v ≤ m := by
  intro k
  induction k with
  | zero =>
    intro st hst
    match st, hst with
    | [a], _ => exact ⟨a, by simp [evalToks], by simp, by simp⟩
  | succ k ih =>
    intro st hst
    match st, hst with
    | b :: a :: st', hst =>
      have hstep : evalToks env (List.replicate (k + 1) ETok.maxT) (b :: a :: st') =
          evalToks env (List.replicate k ETok.maxT) (max a b :: st') := by
        simp [List.replicate_succ, evalToks, applyTok]
      have hlen : (max a b :: st').length = k + 1 := by
        simpa using Nat.succ_injective hst
      obtain ⟨m, hm, hmem, hub⟩ := ih (max a b :: st') hlen
      have hmaxle : max a b ≤ m := hub _ (List.mem_cons_self _ _)
      refine ⟨m, by rw [hstep, hm], ?_, ?_⟩
      · rcases List.mem_cons.mp hmem with h | h
        · rcases max_choice a b with hab | hab
          · rw [h, hab]; exact List.mem_cons_of_mem _ (List.mem_cons_self _ _)
          · rw [h, hab]; exact List.mem_cons_self _ _
        · exact List.mem_cons_of_mem _ (List.mem_cons_of_mem _ h)
      · intro v hv
        rcases List.mem_cons.mp hv with h | h
        · exact h ▸ le_trans (le_max_right a b) hmaxle
        · rcases List.mem_cons.mp h with h' | h'
          · exact h' ▸ le_trans (le_max_left a b) hmaxle
          · exact hub _ (List.mem_cons_of_mem _ h')

/-- Pointwise semantics of `max_expr n` on `n` pixel values: the result is
the maximum of the inputs. -/
theorem evalE_maxExpr (xs : List ℝ) (hxs : xs ≠ []) :
    evalE (maxExprToks xs.length) xs ∈ xs ∧ ∀ v ∈ xs, v ≤ evalE (maxExprToks xs.length) xs := by
  have hpush := evalToks_vars xs xs.length []
  have hgetd : ((List.range xs.length).map fun i => xs.getD i 0) = xs := by
    apply List.ext_getElem
    · simp
    · intro i h1 h2
      simp [List.getD_eq_getElem?_getD, List.getElem?_eq_getElem, h2]
  have hlen : xs.reverse.length = (xs.length - 1) + 1 := by
    have : 1 ≤ xs.length := Nat.one_le_iff_ne_zero.mpr (by
      simpa [List.length_eq_zero] using hxs)
    simp [List.length_reverse]
    omega
  obtain ⟨m, hm, hmem, hub⟩ := evalToks_maxRun xs (xs.length - 1) xs.reverse hlen
  have : evalE (maxExprToks xs.length) xs = m := by
    rw [evalE, maxExprToks, evalToks_append, hpush, hgetd]
    simp [hm]
  rw [this]
  exact ⟨List.mem_reverse.mp hmem, fun v hv => hub v (List.mem_reverse.mpr hv)⟩

/-- Pointwise semantics of the Euclidean-distance merge expression. -/
theorem evalE_euclid (env : List ℝ) :
    evalE euclidExpr env =
      Real.sqrt (env.getD 0 0 * env.getD 0 0 + env.getD 1 0 * env.getD 1 0) := rfl

/-- Pointwise semantics of `DoG`'s overriding merge expression. -/
theorem evalE_dog (env : List ℝ) :
    evalE dogExpr env = env.getD 0 0 - env.getD 1 0 := rfl

/-- Pointwise semantics of the ridge merge expression. -/
theorem evalE_ridge (x y z : ℝ) :
    evalE ridgeExpr [x, y, z] =
      Real.sqrt (x ^ 2 + 4 * z ^ 2 + y ^ 2 - 2 * x * y) + x + y := by
  simp only [evalE, ridgeExpr, evalToks, List.foldl, applyTok, List.getD,
    List.headD, List.get?]
  norm_num
  rw [show -(x * y * 2) + (x * x + z * z * 4 + y * y) =
    x ^ 2 + 4 * z ^ 2 + y ^ 2 - 2 * x * y by ring]
  ring

/-! ## Claim C1: merge dispatch by marker trait -/

/-- C1, counterexample: `DoG` (`_5x5.py:95-110`) declares the
`EuclidianDistance` marker trait, but its per-matrix convolution outputs
are not combined as `sqrt(x^2 + y^2)`: it overrides `_merge_edge` with
`Expr(clips, 'x y -')`.  At pixel values `x = 3, y = 4` the two merges
disagree (`-1` versus `5`). -/
theorem C1_dog_breaks_trait_dispatch :
    DoG.trait = MergeTrait.euclidianDistance ∧
    DoG.mergeEdge ≠ traitImpl DoG.trait ∧
    evalE dogExpr [3, 4] = -1 ∧
    evalE euclidExpr [3, 4] = 5 := by
  refine ⟨rfl, by decide, ?_, ?_⟩
  · rw [evalE_dog]; norm_num [List.getD]
  · rw [evalE_euclid]
    norm_num [List.getD]
    rw [show (25 : ℝ) = 5 ^ 2 by norm_num, Real.sqrt_sq (by norm_num : (0:ℝ) ≤ 5)]

/-- C1, amended: for every trait-declaring operator class in the catalog
that does *not* override `_merge_edge` (all of them except `DoG`), the
convolution outputs are combined according to the declared trait; and the
trait merges have the claimed pointwise semantics: `SingleMatrix` returns
the first clip unchanged, `EuclidianDistance` combines the first two
values as `sqrt(x^2 + y^2)`, and `Max` yields the pointwise maximum of
all values. -/
theorem C1_merge_trait_dispatch :
    (∀ op ∈ opCatalog, op.overridesMergeEdge = false →
      op.mergeEdge = traitImpl op.trait) ∧
    (∀ cs : List VNode, runMergeEdge (traitImpl .singleMatrix) cs = cs.headD dummyNode) ∧
    (∀ env : List ℝ, evalE euclidExpr env =
      Real.sqrt (env.getD 0 0 * env.getD 0 0 + env.getD 1 0 * env.getD 1 0)) ∧
    (∀ xs : List ℝ, xs ≠ [] →
      evalE (maxExprToks xs.length) xs ∈ xs ∧
        ∀ v ∈ xs, v ≤ evalE (maxExprToks xs.length) xs) := by
  refine ⟨?_, fun cs => rfl, fun env => evalE_euclid env, fun xs h => evalE_maxExpr xs h⟩
  intro op hop hov
  simp only [opCatalog, List.mem_cons, List.not_mem_nil, or_false] at hop
  rcases hop with rfl|rfl|rfl|rfl|rfl|rfl|rfl|rfl|rfl|rfl|rfl|rfl|rfl|rfl|rfl
  all_goals first
    | rfl
    | exact absurd hov (by decide)

/-- Witness for `C1_merge_trait_dispatch` at the `Max`-trait operator
`ExKirsch` and a concrete two-value pixel environment. -/
theorem C1_merge_trait_dispatch_witness :
    ExKirsch.mergeEdge = traitImpl ExKirsch.trait ∧
    evalE (maxExprToks 2) [1, 5] ∈ [(1:ℝ), 5] := by
  constructor
  · exact C1_merge_trait_dispatch.1 ExKirsch (by simp [opCatalog]) rfl
  · simpa using (C1_merge_trait_dispatch.2.2.2 [(1:ℝ), 5] (by simp)).1

/-! ## Claim C4: the ridge merge receives `[xx, yy, xx]` -/

/-- C4: in `_compute_ridge_mask` (`_abstract.py:174-186`) the third clip
handed to `_merge_ridge` is `_x(x)` — literally the same engine call as
the first clip `xx` — so the ridge mask is the merge of `[xx, yy, xx]`
and no mixed x-then-y cross derivative enters the merged expression,
whose pointwise value is `sqrt(x² + 4z² + y² - 2xy) + x + y`. -/
theorem C4_ridge_third_clip_is_xx (op : MatrixOp) (clip : VNode) :
    (computeRidgeMask op clip =
      stdExpr
        [(clip.convolution (op.matrices.getD 0 []) (op.getDivisors.getD 0 0) true "s").convolution
            (op.matrices.getD 0 []) (op.getDivisors.getD 0 0) true "s",
         (clip.convolution (op.matrices.getD 1 []) (op.getDivisors.getD 1 0) true "s").convolution
            (op.matrices.getD 1 []) (op.getDivisors.getD 1 0) true "s",
         (clip.convolution (op.matrices.getD 0 []) (op.getDivisors.getD 0 0) true "s").convolution
            (op.matrices.getD 0 []) (op.getDivisors.getD 0 0) true "s"]
        [ridgeExpr]) ∧
    ∀ x y z : ℝ, evalE ridgeExpr [x, y, z] =
      Real.sqrt (x ^ 2 + 4 * z ^ 2 + y ^ 2 - 2 * x * y) + x + y :=
  ⟨rfl, evalE_ridge⟩

/-! ## Concrete test fixtures -/

/-- An 8-bit integer single-plane format without chroma subsampling. -/
def fmt8 : VFormat := ⟨8, .integer, 1, 0⟩

/-- A constant-format 8-bit source clip. -/
def clip8 : VNode := ⟨some fmt8, 100, 1, .source (some fmt8)⟩

/-- A 32-bit float single-plane format. -/
def fmtF : VFormat := ⟨32, .float, 1, 0⟩

/-- A constant-format float source clip. -/
def clipF : VNode := ⟨some fmtF, 64, 0, .source (some fmtF)⟩

/-- A variable-format source clip (`clip.format is None`). -/
def varClip : VNode := ⟨none, 100, 1, .source none⟩

/-! ## Claim C2: order of the post-processing steps -/

/-- Modelled from the claim of C2, not from the source: the merged
convolution output with the three post-processing steps applied in the
order the spec lists them — threshold clamp first, then multiplication by
`multi`, then the operator's `_postprocess` (the crop for even-kernel
bleed) last. -/
def maskClaimOrder (op : MatrixOp) (clip : VNode) (lthr : ℚ) (hthr? : Option ℚ)
    (multi : ℚ) (feature : Feature) : Except String VNode :=
  match clip.format with
  | none => .error "Variable format not allowed!"
  | some fmt =>
    let bits := fmt.bits_per_sample
    let isFloat := isFloatFmt fmt
    let peak : ℚ := if isFloat then 1 else 2 ^ bits - 1
    let hthr := hthr?.getD peak
    let mask0 := match feature with
      | .edge => computeEdgeMask op (runPreproc op.preproc clip)
      | .ridge => computeRidgeMask op (runPreproc op.preproc clip)
    let mask1 := thrStep isFloat (2 ^ bits - 1) peak lthr hthr mask0
    let mask2 := multiStep isFloat peak multi mask1
    let mask3 := runPostproc op.postproc op bits mask2
    .ok mask3

/-- Whether the outermost assembled engine call of a mask result is a
`std.Lut`. -/
def outerLut : Except String VNode → Bool
  | .ok v => match v.graph with | .lut _ _ => true | _ => false
  | .error _ => false

/-- C2, counterexample: on an 8-bit clip with `lthr = 150`, `multi = 2`
the pipeline of `_mask` does not equal the claimed
threshold-multiply-crop order — the source crops first and thresholds
last, and the two orders even differ pointwise: the code maps pixel 100
to 200 while the claimed order maps it to 0. -/
theorem C2_order_counterexample :
    maskM ExPrewitt clip8 150 none 2 (.bool false) .edge ≠
      maskClaimOrder ExPrewitt clip8 150 none 2 .edge ∧
    thrFunc 255 255 150 (multiFunc 2 255 100) = 200 ∧
    multiFunc 2 255 (thrFunc 255 255 150 100) = 0 := by
  refine ⟨fun h => absurd (congrArg outerLut h) (by decide), ?_, ?_⟩
  · norm_num [multiFunc, thrFunc, pyRound]
  · norm_num [multiFunc, thrFunc, pyRound]

/-- C2, amended: for every constant-format clip the mask returned by
`_mask` equals the merged convolution output (computed on the operator's
`_preprocess` of the clip) with the steps applied in the source's order —
the operator's `_postprocess` first (the conditional crop for even-kernel
bleed in the base implementation; a depth conversion for the `DoG` and
`Farid` overrides, which never crop), then multiplication by `multi`,
then the threshold clamp, then the range clamp. -/
theorem C2_post_order (op : MatrixOp) (clip : VNode) (fmt : VFormat)
    (hf : clip.format = some fmt) (lthr : ℚ) (hthr? : Option ℚ) (multi : ℚ)
    (clamp : ClampArg) (feature : Feature) :
    maskM op clip lthr hthr? multi clamp feature =
      .ok (clampStep (isFloatFmt fmt) fmt.bits_per_sample
            (if isFloatFmt fmt then 1 else 2 ^ fmt.bits_per_sample - 1) clamp
            (thrStep (isFloatFmt fmt) (2 ^ fmt.bits_per_sample - 1)
              (if isFloatFmt fmt then 1 else 2 ^ fmt.bits_per_sample - 1) lthr
              (hthr?.getD (if isFloatFmt fmt then 1 else 2 ^ fmt.bits_per_sample - 1))
              (multiStep (isFloatFmt fmt)
                (if isFloatFmt fmt then 1 else 2 ^ fmt.bits_per_sample - 1) multi
                (runPostproc op.postproc op fmt.bits_per_sample
                  (match feature with
                   | .edge => computeEdgeMask op (runPreproc op.preproc clip)
                   | .ridge => computeRidgeMask op (runPreproc op.preproc clip)))))) := by
  simp only [maskM, hf]

/-- Witness for `C2_post_order` on a concrete operator, clip and
arguments. -/
theorem C2_post_order_witness :
    maskM Roberts clip8 0 none 1 (.bool false) .edge =
      .ok (clampStep (isFloatFmt fmt8) fmt8.bits_per_sample
            (if isFloatFmt fmt8 then 1 else 2 ^ fmt8.bits_per_sample - 1) (.bool false)
            (thrStep (isFloatFmt fmt8) (2 ^ fmt8.bits_per_sample - 1)
              (if isFloatFmt fmt8 then 1 else 2 ^ fmt8.bits_per_sample - 1) 0
              ((none : Option ℚ).getD (if isFloatFmt fmt8 then 1 else 2 ^ fmt8.bits_per_sample - 1))
              (multiStep (isFloatFmt fmt8)
                (if isFloatFmt fmt8 then 1 else 2 ^ fmt8.bits_per_sample - 1) 1
                (runPostproc Roberts.postproc Roberts fmt8.bits_per_sample
                  (computeEdgeMask Roberts (runPreproc Roberts.preproc clip8)))))) :=
  C2_post_order Roberts clip8 fmt8 rfl 0 none 1 (.bool false) .edge

/-! ## Claim C3: integer threshold semantics and defaults -/

/-- C3: on an integer-format clip with `b` bits, `hthr` defaults to
`peak = 2^b - 1` (`_abstract.py:100-101`); the integer threshold LUT maps
`x` to `peak` when `x > hthr`, to `0` when `x <= lthr` and leaves it
unchanged otherwise (`_abstract.py:122-123`); and with `lthr = 0` and
`hthr = peak` the threshold step is skipped entirely
(`_abstract.py:118`). -/
theorem C3_threshold_int (op : MatrixOp) (clip : VNode) (fmt : VFormat)
    (hf : clip.format = some fmt) (hint : fmt.sample_type = SampleT.integer)
    (lthr multi : ℚ) (clamp : ClampArg) (feature : Feature) :
    (maskM op clip lthr none multi clamp feature =
      maskM op clip lthr (some ((2 : ℚ) ^ fmt.bits_per_sample - 1)) multi clamp feature) ∧
    (∀ (hthr lthr' : ℚ) (x : ℤ),
      thrFunc (2 ^ fmt.bits_per_sample - 1) hthr lthr' x =
        if (x : ℚ) > hthr then 2 ^ fmt.bits_per_sample - 1
        else if (x : ℚ) ≤ lthr' then 0 else x) ∧
    (∀ c : VNode, thrStep false (2 ^ fmt.bits_per_sample - 1)
      ((2 : ℚ) ^ fmt.bits_per_sample - 1) 0 ((2 : ℚ) ^ fmt.bits_per_sample - 1) c = c) := by
  have hfl : isFloatFmt fmt = false := by
    simp [isFloatFmt, hint]
  refine ⟨?_, fun hthr lthr' x => rfl, fun c => ?_⟩
  · simp only [maskM, hf, hfl, Bool.false_eq_true, if_false, Option.getD_some,
      Option.getD_none]
  · simp [thrStep]

/-- Witness for `C3_threshold_int` on an 8-bit clip: the default high
threshold is `255`, pixel 240 maps to itself under `lthr = 10`,
`hthr = 200` it maps to 255, and the zero-threshold call is skipped. -/
theorem C3_threshold_int_witness :
    (maskM Roberts clip8 0 none 1 (.bool false) .edge =
      maskM Roberts clip8 0 (some ((2 : ℚ) ^ 8 - 1)) 1 (.bool false) .edge) ∧
    thrFunc (2 ^ 8 - 1) 200 10 240 = 2 ^ 8 - 1 ∧
    thrStep false (2 ^ 8 - 1) ((2 : ℚ) ^ 8 - 1) 0 ((2 : ℚ) ^ 8 - 1) clip8 = clip8 := by
  have h := C3_threshold_int Roberts clip8 fmt8 rfl rfl 0 1 (.bool false) .edge
  refine ⟨h.1, ?_, h.2.2 clip8⟩
  rw [show ((2 : ℤ) ^ 8 - 1) = 2 ^ fmt8.bits_per_sample - 1 from rfl, h.2.1 200 10 240]
  norm_num

/-! ## Claim C5: the crop step is conditional, not uniform -/

/-- C5, counterexample: `_postprocess` does *not* subject every
operator's output to the same crop-and-resize step: the 3x3 operator
`Roberts` is returned unchanged while the 5x5 operator `ExPrewitt` is
cropped and resized (`_abstract.py:205-210`). -/
theorem C5_crop_counterexample :
    postprocessM Roberts clip8 = clip8 ∧ postprocessM ExPrewitt clip8 ≠ clip8 := by
  constructor
  · rw [postprocessM, if_neg (by decide)]
  · intro h
    rw [postprocessM, if_pos (by decide)] at h
    exact absurd (congrArg VNode.graph h) (by simp [clip8])

mutual

/-- Whether an assembled graph contains a `std.Crop` call. -/
def hasCropNode : VClip → Bool
  | .source _ => false
  | .conv c _ _ _ _ => hasCropNode c
  | .exprN cs _ => hasCropNodeL cs
  | .lut c _ => hasCropNode c
  | .crop _ _ => true
  | .resizePoint c _ _ => hasCropNode c
  | .maxFilter c _ _ _ => hasCropNode c
  | .minFilter c _ _ _ => hasCropNode c
  | .depth c _ _ => hasCropNode c

/-- `hasCropNode` over a list of input clips. -/
def hasCropNodeL : List VClip → Bool
  | [] => false
  | c :: cs => hasCropNode c || hasCropNodeL cs

end

theorem hasCrop_multiStep (isF : Bool) (peak multi : ℚ) (c : VNode) :
    hasCropNode (multiStep isF peak multi c).graph = hasCropNode c.graph := by
  rw [multiStep]
  split
  · split <;> simp [stdExpr, VNode.lutNode, hasCropNode, hasCropNodeL]
  · rfl

theorem hasCrop_thrStep (isF : Bool) (peakI : ℤ) (peak lthr hthr : ℚ) (c : VNode) :
    hasCropNode (thrStep isF peakI peak lthr hthr c).graph = hasCropNode c.graph := by
  rw [thrStep]
  split
  · split <;> simp [stdExpr, VNode.lutNode, hasCropNode, hasCropNodeL]
  · rfl

theorem hasCrop_clampStep (isF : Bool) (bits : Nat) (peak : ℚ)
    (clamp : ClampArg) (c : VNode) :
    hasCropNode (clampStep isF bits peak clamp c).graph = hasCropNode c.graph := by
  cases clamp with
  | bool b =>
    cases b <;> simp [clampStep, clampTruthy, stdExpr, hasCropNode, hasCropNodeL]
  | tup lo hi =>
    simp [clampStep, clampTruthy, stdExpr, hasCropNode, hasCropNodeL]
  | listC l =>
    by_cases hl : l.isEmpty <;>
      simp [clampStep, clampTruthy, hl, stdExpr, hasCropNode, hasCropNodeL]

theorem hasCrop_runPreproc (p : PreprocImpl) (c : VNode) :
    hasCropNode (runPreproc p c).graph = hasCropNode c.graph := by
  cases p <;> simp [runPreproc, depthNode, hasCropNode]

theorem hasCropL_convs (g : VClip) (h : hasCropNode g = false)
    (l : List (List ℚ × ℚ × String)) :
    hasCropNodeL (l.map fun t => VClip.conv g t.1 t.2.1 false t.2.2) = false := by
  induction l with
  | nil => rfl
  | cons a l ih => simp [hasCropNodeL, hasCropNode, h, ih]

theorem hasCrop_computeEdgeMask (op : MatrixOp) (clip : VNode)
    (h : hasCropNode clip.graph = false) :
    hasCropNode (computeEdgeMask op clip).graph = false := by
  rw [computeEdgeMask]
  cases op.mergeEdge with
  | singleI =>
    cases hargs : edgeConvArgs op with
    | nil => simp [runMergeEdge, dummyNode, hasCropNode]
    | cons t ts =>
      simp [runMergeEdge, VNode.convolution, hasCropNode, h]
  | euclidI =>
    simp only [runMergeEdge, stdExpr, hasCropNode, List.map_map]
    rw [show ((fun v : VNode => v.graph) ∘ fun t : List ℚ × ℚ × String =>
        clip.convolution t.1 t.2.1 false t.2.2) =
        (fun t : List ℚ × ℚ × String =>
          VClip.conv clip.graph t.1 t.2.1 false t.2.2) from rfl]
    exact hasCropL_convs clip.graph h _
  | maxI =>
    simp only [runMergeEdge, stdExpr, hasCropNode, List.map_map]
    rw [show ((fun v : VNode => v.graph) ∘ fun t : List ℚ × ℚ × String =>
        clip.convolution t.1 t.2.1 false t.2.2) =
        (fun t : List ℚ × ℚ × String =>
          VClip.conv clip.graph t.1 t.2.1 false t.2.2) from rfl]
    exact hasCropL_convs clip.graph h _
  | dogI =>
    simp only [runMergeEdge, stdExpr, hasCropNode, List.map_map]
    rw [show ((fun v : VNode => v.graph) ∘ fun t : List ℚ × ℚ × String =>
        clip.convolution t.1 t.2.1 false t.2.2) =
        (fun t : List ℚ × ℚ × String =>
          VClip.conv clip.graph t.1 t.2.1 false t.2.2) from rfl]
    exact hasCropL_convs clip.graph h _

theorem hasCrop_computeRidgeMask (op : MatrixOp) (clip : VNode)
    (h : hasCropNode clip.graph = false) :
    hasCropNode (computeRidgeMask op clip).graph = false := by
  simp [computeRidgeMask, stdExpr, VNode.convolution, hasCropNode,
    hasCropNodeL, h]

/-- Whether a successful mask result's graph contains a `std.Crop`. -/
def okGraphHasCrop : Except String VNode → Bool
  | .ok v => hasCropNode v.graph
  | .error _ => false

/-- C5, amended: for the operators that inherit
`MatrixEdgeDetect._postprocess`, the crop-and-resize step runs exactly
when the first matrix has more than 9 coefficients or the first
convolution mode is not `'s'` (identity otherwise, width preserved and
the `Crop`/`resize.Point` chain appended when it runs); `DoG` and `Farid`
instead override `_postprocess` with a depth conversion, so — although
their first matrices have 25 coefficients — no crop is ever applied:
their whole `edgemask`/`ridgemask` graph is crop-free. -/
theorem C5_crop_conditional :
    (∀ (op : MatrixOp) (bits : Nat) (c : VNode),
      op.postproc = PostprocImpl.cropPost →
      (¬cropCond op → runPostproc op.postproc op bits c = c) ∧
      (cropCond op →
        (runPostproc op.postproc op bits c).graph =
          .resizePoint (.crop c.graph (cropAmount c)) c.width c.width ∧
        (runPostproc op.postproc op bits c).width = c.width)) ∧
    (DoG.postproc = PostprocImpl.depthBack ∧
      Farid.postproc = PostprocImpl.depthBack ∧
      9 < (DoG.matrices.headD []).length ∧
      9 < (Farid.matrices.headD []).length) ∧
    (∀ (op : MatrixOp) (clip : VNode) (fmt : VFormat) (lthr : ℚ)
        (hthr? : Option ℚ) (multi : ℚ) (clamp : ClampArg) (feature : Feature),
      op.postproc = PostprocImpl.depthBack →
      clip.format = some fmt → hasCropNode clip.graph = false →
      okGraphHasCrop (maskM op clip lthr hthr? multi clamp feature) = false) := by
  refine ⟨?_, ⟨rfl, rfl, by decide, by decide⟩, ?_⟩
  · intro op bits c hp
    rw [hp]
    constructor
    · intro h
      show postprocessM op c = c
      rw [postprocessM, if_neg h]
    · intro h
      show (postprocessM op c).graph = _ ∧ (postprocessM op c).width = c.width
      rw [postprocessM, if_pos h]
      exact ⟨rfl, rfl⟩
  · intro op clip fmt lthr hthr? multi clamp feature hp hf hcrop
    simp only [maskM, hf, okGraphHasCrop]
    rw [hasCrop_clampStep, hasCrop_thrStep, hasCrop_multiStep, hp]
    show hasCropNode (depthNode _ _ _).graph = false
    rw [depthNode]
    show hasCropNode (VClip.depth _ _ _) = false
    rw [hasCropNode]
    have hpre : hasCropNode (runPreproc op.preproc clip).graph = false := by
      rw [hasCrop_runPreproc]
      exact hcrop
    cases feature with
    | edge => exact hasCrop_computeEdgeMask op _ hpre
    | ridge => exact hasCrop_computeRidgeMask op _ hpre

/-- Witness for `C5_crop_conditional`: `Roberts` (9 coefficients, square
mode) is untouched, `TEdge` (horizontal/vertical 1-D modes) is cropped by
2 and resized back, and a full `DoG` edgemask on the 8-bit clip assembles
no crop at all. -/
theorem C5_crop_conditional_witness :
    runPostproc Roberts.postproc Roberts 8 clipF = clipF ∧
    (runPostproc TEdge.postproc TEdge 8 clipF).graph =
      .resizePoint (.crop clipF.graph (cropAmount clipF)) clipF.width clipF.width ∧
    okGraphHasCrop (maskM DoG clip8 0 none 1 (.bool false) .edge) = false := by
  refine ⟨(C5_crop_conditional.1 Roberts 8 clipF rfl).1 (by decide),
    ((C5_crop_conditional.1 TEdge 8 clipF rfl).2 (by decide)).1,
    C5_crop_conditional.2.2 DoG clip8 fmt8 0 none 1 (.bool false) .edge rfl rfl rfl⟩

/-! ## Claim C6: a list `clamp` is clamped twice -/

/-- C6: when `clamp` is a non-empty list of `(low, high)` pairs on an
integer-format clip (`isFloat = false`), the mask is clamped twice: the
`isinstance(clamp, list)` block clamps each plane to its listed pair, and
the list then fails the `isinstance(clamp, tuple)` test and falls into its
`else` branch, which additionally applies the default range clamp — full
range `[0, peak]` when the first frame's `_ColorRange` is 0, and the TV
ranges `16..235/240` scaled by bit depth otherwise
(`_abstract.py:126-144`). -/
theorem C6_list_clamp_double (l : List (ℚ × ℚ)) (hl : l ≠ []) (c : VNode)
    (fmt : VFormat) (hf : c.format = some fmt) (bits : Nat) (peak : ℚ) :
    clampStep false bits peak (.listC l) c =
      stdExpr [stdExpr [c] (l.map fun p => clampExpr p.1 p.2)]
        (((if c.colorRange = 0 then List.replicate 3 ((0 : ℚ), peak)
           else tvClampVals bits).take fmt.num_planes).map
          fun p => clampExpr p.1 p.2) := by
  have htr : clampTruthy (ClampArg.listC l) = true := by
    simp [clampTruthy, hl]
  simp only [clampStep, htr, if_true]
  simp [stdExpr, defaultClampVals, hf]

/-- Witness for `C6_list_clamp_double`: a one-pair list on the TV-range
8-bit test clip is clamped to its pair and then to `16..235`. -/
theorem C6_list_clamp_double_witness :
    clampStep false 8 255 (.listC [(5, 250)]) clip8 =
      stdExpr [stdExpr [clip8] [clampExpr 5 250]]
        (((tvClampVals 8).take fmt8.num_planes).map fun p => clampExpr p.1 p.2) := by
  have h := C6_list_clamp_double [(5, 250)] (by simp) clip8 fmt8 rfl 8 255
  simpa using h

/-! ## Claim C7: class constants are never modified, and every
convolution passes them verbatim -/

mutual

/-- All `std.Convolution` invocations recorded in an assembled graph, in
assembly order: `(matrix, divisor, saturate, mode)`. -/
def convCalls : VClip → List (List ℚ × ℚ × Bool × String)
  | .source _ => []
  | .conv c m d s mo => convCalls c ++ [(m, d, s, mo)]
  | .exprN cs _ => convCallsL cs
  | .lut c _ => convCalls c
  | .crop c _ => convCalls c
  | .resizePoint c _ _ => convCalls c
  | .maxFilter c _ _ _ => convCalls c
  | .minFilter c _ _ _ => convCalls c
  | .depth c _ _ => convCalls c

/-- `convCalls` over a list of input clips. -/
def convCallsL : List VClip → List (List ℚ × ℚ × Bool × String)
  | [] => []
  | c :: cs => convCalls c ++ convCallsL cs

end

theorem convCalls_postprocessM (op : MatrixOp) (c : VNode) :
    convCalls (postprocessM op c).graph = convCalls c.graph := by
  rw [postprocessM]
  split <;> simp [convCalls]

theorem convCalls_runPreproc (p : PreprocImpl) (c : VNode) :
    convCalls (runPreproc p c).graph = convCalls c.graph := by
  cases p <;> simp [runPreproc, depthNode, convCalls]

theorem convCalls_runPostproc (p : PostprocImpl) (op : MatrixOp) (bits : Nat)
    (c : VNode) :
    convCalls (runPostproc p op bits c).graph = convCalls c.graph := by
  cases p with
  | cropPost => exact convCalls_postprocessM op c
  | depthBack => simp [runPostproc, depthNode, convCalls]

theorem convCalls_multiStep (isF : Bool) (peak multi : ℚ) (c : VNode) :
    convCalls (multiStep isF peak multi c).graph = convCalls c.graph := by
  rw [multiStep]
  split
  · split <;> simp [stdExpr, VNode.lutNode, convCalls, convCallsL]
  · rfl

theorem convCalls_thrStep (isF : Bool) (peakI : ℤ) (peak lthr hthr : ℚ) (c : VNode) :
    convCalls (thrStep isF peakI peak lthr hthr c).graph = convCalls c.graph := by
  rw [thrStep]
  split
  · split <;> simp [stdExpr, VNode.lutNode, convCalls, convCallsL]
  · rfl

theorem convCalls_clampStep (isF : Bool) (bits : Nat) (peak : ℚ)
    (clamp : ClampArg) (c : VNode) :
    convCalls (clampStep isF bits peak clamp c).graph = convCalls c.graph := by
  cases clamp with
  | bool b =>
    cases b <;> simp [clampStep, clampTruthy, stdExpr, convCalls, convCallsL]
  | tup lo hi =>
    simp [clampStep, clampTruthy, stdExpr, convCalls, convCallsL]
  | listC l =>
    by_cases hl : l.isEmpty <;>
      simp [clampStep, clampTruthy, hl, stdExpr, convCalls, convCallsL]

theorem convCallsL_convs (g : VClip) (h : convCalls g = [])
    (l : List (List ℚ × ℚ × String)) :
    convCallsL (l.map fun t => VClip.conv g t.1 t.2.1 false t.2.2) =
      l.map fun t => (t.1, t.2.1, false, t.2.2) := by
  induction l with
  | nil => rfl
  | cons a l ih => simp [convCallsL, convCalls, h, ih]

theorem convCalls_computeEdgeMask (op : MatrixOp) (clip : VNode)
    (h : convCalls clip.graph = []) :
    ∀ call ∈ convCalls (computeEdgeMask op clip).graph,
      call ∈ (edgeConvArgs op).map fun t => (t.1, t.2.1, false, t.2.2) := by
  intro call hc
  rw [computeEdgeMask] at hc
  cases him : op.mergeEdge <;> rw [him] at hc
  case singleI =>
    cases hargs : edgeConvArgs op with
    | nil => simp [hargs, runMergeEdge, dummyNode, convCalls] at hc
    | cons t ts =>
      simp only [hargs, runMergeEdge, List.map_cons, List.headD,
        VNode.convolution, convCalls, h, List.nil_append,
        List.mem_singleton] at hc
      simp [hc]
  all_goals
    simp only [runMergeEdge, stdExpr, convCalls, List.map_map] at hc
    rw [show ((fun v : VNode => v.graph) ∘ fun t : List ℚ × ℚ × String =>
        clip.convolution t.1 t.2.1 false t.2.2) =
        (fun t : List ℚ × ℚ × String =>
          VClip.conv clip.graph t.1 t.2.1 false t.2.2) from rfl,
      convCallsL_convs clip.graph h] at hc
    exact hc

theorem convCalls_computeRidgeMask (op : MatrixOp) (clip : VNode)
    (h : convCalls clip.graph = []) :
    convCalls (computeRidgeMask op clip).graph =
      [(op.matrices.getD 0 [], op.getDivisors.getD 0 0, true, "s"),
       (op.matrices.getD 0 [], op.getDivisors.getD 0 0, true, "s"),
       (op.matrices.getD 1 [], op.getDivisors.getD 1 0, true, "s"),
       (op.matrices.getD 1 [], op.getDivisors.getD 1 0, true, "s"),
       (op.matrices.getD 0 [], op.getDivisors.getD 0 0, true, "s"),
       (op.matrices.getD 0 [], op.getDivisors.getD 0 0, true, "s")] := by
  simp [computeRidgeMask, stdExpr, VNode.convolution, convCalls, convCallsL, h]

/-- C7: no call to `edgemask`, `ridgemask` or `get_mask` (all of which go
through `_mask`, here `maskS`) modifies the operator's class constants —
the instance state update touches only `_bits` — and every
`std.Convolution` invocation recorded in the returned graph carries
exactly the class-level `matrices` / `_get_divisors()` /
`_get_mode_types()` entries (with `saturate=False` for edge masks and the
engine defaults `saturate=True, mode='s'` for ridge masks). -/
theorem C7_constants_immutable (st : OpState) (clip : VNode) (lthr : ℚ)
    (hthr? : Option ℚ) (multi : ℚ) (clamp : ClampArg) (feature : Feature) :
    ((maskS st clip lthr hthr? multi clamp feature).1.op = st.op) ∧
    (∀ (fmt : VFormat) (v : VNode), clip.format = some fmt →
      convCalls clip.graph = [] →
      maskM st.op clip lthr hthr? multi clamp .edge = .ok v →
      ∀ call ∈ convCalls v.graph,
        call ∈ (edgeConvArgs st.op).map fun t => (t.1, t.2.1, false, t.2.2)) ∧
    (∀ (fmt : VFormat) (v : VNode), clip.format = some fmt →
      convCalls clip.graph = [] →
      maskM st.op clip lthr hthr? multi clamp .ridge = .ok v →
      ∀ call ∈ convCalls v.graph,
        call ∈ [(st.op.matrices.getD 0 [], st.op.getDivisors.getD 0 0, true, "s"),
                (st.op.matrices.getD 1 [], st.op.getDivisors.getD 1 0, true, "s")]) := by
  refine ⟨?_, ?_, ?_⟩
  · cases hc : clip.format <;> simp [maskS, hc]
  · intro fmt v hf hcc hok call hcall
    simp only [maskM, hf] at hok
    have hv := (Except.ok.injEq _ _).mp hok
    rw [← hv, convCalls_clampStep, convCalls_thrStep, convCalls_multiStep,
      convCalls_runPostproc] at hcall
    refine convCalls_computeEdgeMask st.op (runPreproc st.op.preproc clip)
      ?_ call hcall
    rw [convCalls_runPreproc]
    exact hcc
  · intro fmt v hf hcc hok call hcall
    simp only [maskM, hf] at hok
    have hv := (Except.ok.injEq _ _).mp hok
    rw [← hv, convCalls_clampStep, convCalls_thrStep, convCalls_multiStep,
      convCalls_runPostproc,
      convCalls_computeRidgeMask st.op (runPreproc st.op.preproc clip)
        (by rw [convCalls_runPreproc]; exact hcc)] at hcall
    simp only [List.mem_cons, List.not_mem_nil, or_false] at hcall ⊢
    tauto

/-- Witness for `C7_constants_immutable`: a concrete `edgemask` call on
`FDoG` leaves the class constants untouched and its two convolutions use
the class matrices and divisors. -/
theorem C7_constants_immutable_witness :
    ((maskS ⟨FDoG, none⟩ clip8 0 none 1 (.bool false) .edge).1.op = FDoG) ∧
    ∀ call ∈ convCalls
      ((clampStep false 8 255 (.bool false)
        (thrStep false 255 255 0 255
          (multiStep false 255 1
            (runPostproc FDoG.postproc FDoG 8
              (computeEdgeMask FDoG (runPreproc FDoG.preproc clip8)))))).graph),
      call ∈ (edgeConvArgs FDoG).map fun t => (t.1, t.2.1, false, t.2.2) := by
  have h := C7_constants_immutable ⟨FDoG, none⟩ clip8 0 none 1 (.bool false) .edge
  refine ⟨h.1, ?_⟩
  refine h.2.1 fmt8 _ rfl rfl ?_
  norm_num [maskM, clip8, fmt8, isFloatFmt]

/-! ## Claim C8: optional descriptor fields and their defaults -/

theorem getD_of_lt {α : Type _} (l : List α) (i : Nat) (d : α)
    (h : i < l.length) : l.getD i d = l[i] := by
  rw [List.getD_eq_getElem?_getD, List.getElem?_eq_getElem h]
  rfl

/-- C8: when `divisors` is unset (`None` or empty) every matrix is
convolved with divisor `0.0`, when `mode_types` is unset every matrix is
convolved with square mode `'s'` (`_abstract.py:199-203`); the `i`-th
convolution pairs the `i`-th matrix with the `i`-th divisor and mode; and
for every operator of the catalog the divisor and mode lists used have
the same length as `matrices`, so there is one convolution per matrix. -/
theorem C8_descriptor_defaults :
    (∀ op : MatrixOp, op.divisors = none ∨ op.divisors = some [] →
      op.getDivisors = List.replicate op.matrices.length 0) ∧
    (∀ op : MatrixOp, op.mode_types = none ∨ op.mode_types = some [] →
      op.getModeTypes = List.replicate op.matrices.length "s") ∧
    (∀ (op : MatrixOp) (i : Nat), i < (edgeConvArgs op).length →
      (edgeConvArgs op).getD i ([], 0, "s") =
        (op.matrices.getD i [], op.getDivisors.getD i 0, op.getModeTypes.getD i "s")) ∧
    (∀ op ∈ opCatalog,
      op.getDivisors.length = op.matrices.length ∧
      op.getModeTypes.length = op.matrices.length ∧
      (edgeConvArgs op).length = op.matrices.length) := by
  refine ⟨?_, ?_, ?_, ?_⟩
  · intro op h
    rcases h with h | h <;> simp [MatrixOp.getDivisors, h]
  · intro op h
    rcases h with h | h <;> simp [MatrixOp.getModeTypes, h]
  · intro op i hi
    have hlen := hi
    rw [edgeConvArgs, List.length_zip, List.length_zip, lt_min_iff, lt_min_iff] at hlen
    have h1 : i < op.matrices.length := hlen.1
    have h3 : i < op.getDivisors.length := hlen.2.1
    have h4 : i < op.getModeTypes.length := hlen.2.2
    rw [getD_of_lt _ _ _ hi, getD_of_lt _ _ _ h1, getD_of_lt _ _ _ h3,
      getD_of_lt _ _ _ h4]
    simp only [edgeConvArgs, List.getElem_zip]
  · intro op hop
    simp only [opCatalog, List.mem_cons, List.not_mem_nil, or_false] at hop
    rcases hop with rfl|rfl|rfl|rfl|rfl|rfl|rfl|rfl|rfl|rfl|rfl|rfl|rfl|rfl|rfl <;>
      refine ⟨by decide, by decide, by decide⟩

/-- Witness for `C8_descriptor_defaults`: `ExPrewitt` leaves `divisors`
unset and so convolves both matrices with divisor 0; the second
convolution of `DoG` pairs its second matrix with divisor 6 and mode
`'s'`; and `FDoG`'s lists match its two matrices. -/
theorem C8_descriptor_defaults_witness :
    ExPrewitt.getDivisors = List.replicate ExPrewitt.matrices.length 0 ∧
    (edgeConvArgs DoG).getD 1 ([], 0, "s") =
      (DoG.matrices.getD 1 [], DoG.getDivisors.getD 1 0, DoG.getModeTypes.getD 1 "s") ∧
    (edgeConvArgs FDoG).length = FDoG.matrices.length := by
  refine ⟨C8_descriptor_defaults.1 ExPrewitt (Or.inl rfl),
    C8_descriptor_defaults.2.2.1 DoG 1 (by decide),
    (C8_descriptor_defaults.2.2.2 FDoG (by simp [opCatalog])).2.2⟩

/-! ## Claim C9: `expand` / `inpand` call counts and coordinates -/

theorem zipLongest0_left_zero : ∀ t : Nat,
    zipLongest0 [0] (downRange t) = zipLongest0 [] (downRange t) := by
  intro t
  cases t <;> simp [downRange, zipLongest0]

theorem zipLongest0_right_zero : ∀ t : Nat,
    zipLongest0 (downRange t) [0] = zipLongest0 (downRange t) [] := by
  intro t
  cases t <;> simp [downRange, zipLongest0]

/-- The pair sequence of the loop peels one step at a time while either
extent is positive. -/
theorem morphoPairs_cons (sw sh : Nat) (h : 0 < sw ∨ 0 < sh) :
    morphoPairs sw sh = (sw, sh) :: morphoPairs (sw - 1) (sh - 1) := by
  match sw, sh with
  | 0, 0 => omega
  | s + 1, t + 1 => simp [morphoPairs, downRange, zipLongest0]
  | 0, t + 1 =>
    simp only [morphoPairs, downRange, zipLongest0, Nat.zero_sub, Nat.add_sub_cancel]
    rw [zipLongest0_left_zero t]
  | s + 1, 0 =>
    simp only [morphoPairs, downRange, zipLongest0, Nat.zero_sub, Nat.add_sub_cancel]
    rw [zipLongest0_right_zero s]

theorem coordsFor_isSome (mode : XxpandMode) (wi hi : Nat) (h : 0 < wi ∨ 0 < hi) :
    ∃ k, coordsFor mode wi hi = some k := by
  rw [coordsFor]
  split_ifs <;> first | exact ⟨_, rfl⟩ | omega

theorem morphoCalls_length (mode : XxpandMode) :
    ∀ sw sh : Nat, (morphoCalls mode sw sh).length = max sw sh := by
  intro sw
  induction sw with
  | zero =>
    intro sh
    induction sh with
    | zero =>
      simp [morphoCalls, morphoPairs, downRange, zipLongest0, morphoCallsGo,
        coordsFor]
    | succ t ih =>
      obtain ⟨k, hk⟩ := coordsFor_isSome mode 0 (t + 1) (Or.inr (Nat.succ_pos t))
      rw [morphoCalls, morphoPairs_cons 0 (t + 1) (Or.inr (Nat.succ_pos t))]
      simp only [morphoCallsGo, hk, List.length_cons]
      rw [show (0 : Nat) - 1 = 0 from rfl, show t + 1 - 1 = t from rfl]
      rw [morphoCalls] at ih
      omega
  | succ s ih =>
    intro sh
    obtain ⟨k, hk⟩ := coordsFor_isSome mode (s + 1) sh (Or.inl (Nat.succ_pos s))
    rw [morphoCalls, morphoPairs_cons (s + 1) sh (Or.inl (Nat.succ_pos s))]
    simp only [morphoCallsGo, hk, List.length_cons]
    have h' := ih (sh - 1)
    rw [morphoCalls] at h'
    rw [show s + 1 - 1 = s from rfl, h']
    omega

theorem morphoGo_eq_foldl (f : MorphoFilter) (mode : XxpandMode)
    (planes : Option (List Nat)) (thr : Option Nat) :
    ∀ (pairs : List (Nat × Nat)) (c : VNode),
      morphoGo f mode planes thr pairs c =
        (morphoCallsGo mode pairs).foldl
          (fun c k => applyMorpho f c planes thr k) c := by
  intro pairs
  induction pairs with
  | nil => intro c; rfl
  | cons p rest ih =>
    intro c
    rcases p with ⟨wi, hi⟩
    cases hcf : coordsFor mode wi hi with
    | none => simp [morphoGo, morphoCallsGo, hcf]
    | some k => simp only [morphoGo, morphoCallsGo, hcf, List.foldl_cons, ih]

/-- C9: `expand` (with `std.Maximum`) and `inpand` (with `std.Minimum`)
fold exactly the loop's coordinate sequence over the clip; the number of
engine filter calls is exactly `max sw sh` (`sh` defaulting to `sw`); the
coordinates are the diamond pattern when both extents remain positive and
the mode is `LOSANGE`, or `ELLIPSE` with `wi % 3 != 1`, all-ones
otherwise, the horizontal pattern when only the width remains and the
vertical pattern when only the height remains; and `sw = sh = 0` returns
the clip unchanged. -/
theorem C9_expand_inpand :
    (∀ (clip : VNode) (sw : Nat) (sh : Option Nat) (mode : XxpandMode)
        (thr : Option Nat) (planes : Option (List Nat)),
      expand clip sw sh mode thr planes =
        (morphoCalls mode sw (sh.getD sw)).foldl
          (fun c k => applyMorpho .maximum c planes thr k) clip ∧
      inpand clip sw sh mode thr planes =
        (morphoCalls mode sw (sh.getD sw)).foldl
          (fun c k => applyMorpho .minimum c planes thr k) clip) ∧
    (∀ (mode : XxpandMode) (sw sh : Nat),
      (morphoCalls mode sw sh).length = max sw sh) ∧
    (∀ (mode : XxpandMode) (wi hi : Nat), 0 < wi → 0 < hi →
      coordsFor mode wi hi =
        some (if mode = XxpandMode.losange ∨ (mode = XxpandMode.ellipse ∧ wi % 3 ≠ 1)
          then [0, 1, 0, 1, 1, 0, 1, 0] else [1, 1, 1, 1, 1, 1, 1, 1])) ∧
    (∀ (mode : XxpandMode) (wi : Nat), 0 < wi →
      coordsFor mode wi 0 = some [0, 0, 0, 1, 1, 0, 0, 0]) ∧
    (∀ (mode : XxpandMode) (hi : Nat), 0 < hi →
      coordsFor mode 0 hi = some [0, 1, 0, 0, 0, 0, 1, 0]) ∧
    (∀ (clip : VNode) (mode : XxpandMode) (thr : Option Nat)
        (planes : Option (List Nat)),
      expand clip 0 none mode thr planes = clip ∧
      inpand clip 0 none mode thr planes = clip) := by
  refine ⟨?_, morphoCalls_length, ?_, ?_, ?_, ?_⟩
  · intro clip sw sh mode thr planes
    exact ⟨morphoGo_eq_foldl .maximum mode planes thr _ clip,
      morphoGo_eq_foldl .minimum mode planes thr _ clip⟩
  · intro mode wi hi hw hh
    rw [coordsFor, if_pos ⟨hw, hh⟩]
    split_ifs with h
    · rfl
    · simp [List.replicate]
  · intro mode wi hw
    rw [coordsFor, if_neg (by omega), if_pos hw]
  · intro mode hi hh
    rw [coordsFor, if_neg (by omega), if_neg (by omega), if_pos hh]
  · intro clip mode thr planes
    constructor <;> simp [expand, inpand, morpho_transfo, morphoPairs,
      downRange, zipLongest0, morphoGo, coordsFor]

/-- Witness for `C9_expand_inpand` at concrete extents and modes. -/
theorem C9_expand_inpand_witness :
    expand clip8 2 (some 3) .losange none none =
      (morphoCalls .losange 2 3).foldl
        (fun c k => applyMorpho .maximum c none none k) clip8 ∧
    (morphoCalls .ellipse 2 3).length = max 2 3 ∧
    coordsFor .losange 2 3 = some [0, 1, 0, 1, 1, 0, 1, 0] ∧
    coordsFor .rectangle 2 0 = some [0, 0, 0, 1, 1, 0, 0, 0] ∧
    coordsFor .rectangle 0 3 = some [0, 1, 0, 0, 0, 0, 1, 0] ∧
    inpand clip8 0 none .ellipse none none = clip8 := by
  refine ⟨(C9_expand_inpand.1 clip8 2 (some 3) .losange none none).1,
    C9_expand_inpand.2.1 .ellipse 2 3, ?_,
    C9_expand_inpand.2.2.2.1 .rectangle 2 (by norm_num),
    C9_expand_inpand.2.2.2.2.1 .rectangle 3 (by norm_num),
    (C9_expand_inpand.2.2.2.2.2 clip8 .ellipse none none).2⟩
  rw [C9_expand_inpand.2.2.1 .losange 2 3 (by norm_num) (by norm_num)]
  simp

/-! ## Claim C10: variable-format validation -/

/-- C10, counterexample: on a variable-format clip the legacy
`vsmask.edge.EdgeDetect.get_mask` (`edge.py:33-34`) raises
`ValueError('get_mask: Variable format not allowed!')` — with a
`'get_mask: '` prefix — so it never raises the exact message the claim
states. -/
theorem C10_legacy_message_counterexample :
    getMaskLegacy Roberts varClip 0 none 1 =
      .error "get_mask: Variable format not allowed!" ∧
    getMaskLegacy Roberts varClip 0 none 1 ≠
      .error "Variable format not allowed!" := by
  refine ⟨rfl, fun h => ?_⟩
  have h' : "get_mask: Variable format not allowed!" = "Variable format not allowed!" := by
    have hrw : getMaskLegacy Roberts varClip 0 none 1 =
        .error "get_mask: Variable format not allowed!" := rfl
    rw [hrw] at h
    exact Except.error.inj h
  exact absurd h' (by decide)

/-- C10, amended: `_mask` — and hence `edgemask`, `ridgemask` and the
deprecated `get_mask`, which delegate to it — raises
`ValueError('Variable format not allowed!')` iff the clip has variable
format; the legacy module's `get_mask` raises the same error with a
`'get_mask: '` prefix; on a constant-format clip neither ever raises;
and the error is raised before `_bits` is assigned or any engine call is
assembled. -/
theorem C10_variable_format_validation (op : MatrixOp) (st : OpState)
    (clip : VNode) (lthr : ℚ) (hthr? : Option ℚ) (multi : ℚ)
    (clamp : ClampArg) (feature : Feature) :
    (maskM op clip lthr hthr? multi clamp feature =
        .error "Variable format not allowed!" ↔ clip.format = none) ∧
    (getMaskLegacy op clip lthr hthr? multi =
        .error "get_mask: Variable format not allowed!" ↔ clip.format = none) ∧
    (∀ fmt, clip.format = some fmt →
      (∃ v, maskM op clip lthr hthr? multi clamp feature = .ok v) ∧
      (∃ v, getMaskLegacy op clip lthr hthr? multi = .ok v)) ∧
    (clip.format = none →
      maskS st clip lthr hthr? multi clamp feature =
        (st, .error "Variable format not allowed!")) := by
  cases hc : clip.format with
  | none =>
    refine ⟨by simp [maskM, hc], by simp [getMaskLegacy, hc], ?_, by simp [maskS, hc]⟩
    intro fmt hf
    exact Option.noConfusion hf
  | some fmt' =>
    refine ⟨by simp [maskM, hc], by simp [getMaskLegacy, hc], ?_, fun h => ?_⟩
    · intro fmt hf
      constructor
      · simp [maskM, hc]
      · simp [getMaskLegacy, hc]
    · exact Option.noConfusion h

/-- Witness for `C10_variable_format_validation`: the variable-format
clip errors (before the state is touched) and the constant-format 8-bit
clip succeeds. -/
theorem C10_variable_format_validation_witness :
    (maskM Roberts varClip 0 none 1 (.bool false) .edge =
      .error "Variable format not allowed!") ∧
    (∃ v, maskM Roberts clip8 0 none 1 (.bool false) .edge = .ok v) ∧
    maskS ⟨Roberts, none⟩ varClip 0 none 1 (.bool false) .edge =
      (⟨Roberts, none⟩, .error "Variable format not allowed!") :=
  ⟨(C10_variable_format_validation Roberts ⟨Roberts, none⟩ varClip 0 none 1
      (.bool false) .edge).1.mpr rfl,
   ((C10_variable_format_validation Roberts ⟨Roberts, none⟩ clip8 0 none 1
      (.bool false) .edge).2.2.1 fmt8 rfl).1,
   (C10_variable_format_validation Roberts ⟨Roberts, none⟩ varClip 0 none 1
      (.bool false) .edge).2.2.2 rfl⟩

end VSMask
